import Mathlib

/-!
Shallow embedding of `nestcollector/osm_elements.py`.

The Python module defines three classes, `Node`, `Way` and `Relation`, each an
attribute record with an identity-based `__eq__`, plus two geometry builders:
`Way.build_polygon(nodes)` and `Relation.build_multipolygon(ways)`.

Modelling conventions:
- Python floats are carried opaquely as rationals: the code performs no
  arithmetic on coordinates, it only stores and copies them.
- A Python lookup mapping (dict) is an association list `List (Int × Element)`
  where `Element` is the heterogeneous runtime value (a `Node`, `Way` or
  `Relation` object).  Because Python is duck typed, `build_polygon` may
  receive a mapping whose values are `Way` objects (this is exactly what
  `build_multipolygon` does), and attribute access on a value of the wrong
  class raises `AttributeError`; dictionary lookup of an absent key raises
  `KeyError`.  Both are modelled by `PyErr`.
- Object mutation (`way.polygon = ...`) is modelled by threading the mapping
  as state: the entry of the mutated object is replaced.  Methods also return
  the updated `self`; the bodies of `build_polygon` and `build_multipolygon`
  never assign to `self`, so they return it unchanged.
- `build_multipolygon` additionally returns the ordered list of way ids for
  which it invoked `build_polygon` (the polygon construction trace).  This is
  a ghost observation used to state the memoization properties; it does not
  influence any computed value.
- The shapely constructors `Polygon(coords)` and `MultiPolygon(polygons)` are
  external collaborators; they are modelled as wrappers around the coordinate
  sequence and the polygon sequence (polygon validity is out of scope).
-/

namespace OSM

/-- Shapely polygon, modelled as the ordered coordinate sequence it was built
from; two polygons built from the same coordinates are geometrically equal. -/
structure Polygon where
  coords : List (ℚ × ℚ)
deriving DecidableEq

/-- Shapely multipolygon, modelled as the ordered list of its polygons. -/
structure MultiPolygon where
  polygons : List Polygon
deriving DecidableEq

/-- Python exceptions that the embedded code can raise: `KeyError` from a
mapping lookup of an absent key, `AttributeError` from attribute access on an
object of the wrong class. -/
inductive PyErr where
  | keyError (k : ℤ)
  | attributeError (attr : String)
deriving DecidableEq

/-- Lookup in a Python dict with string keys (used for `tags`). -/
def dictGet : List (String × String) → String → Option String
  | [], _ => none
  | (k, v) :: rest, n => if n = k then some v else dictGet rest n

/-- The name derivation shared by `Way.__init__` and `Relation.__init__`:
`tags[ "name" ] if tags and "name" in tags else None`.  The truthiness test
`tags and ...` makes an empty dict behave like an absent one. -/
def initName (tags : Option (List (String × String))) : Option String :=
  match tags with
  | none => none
  | some d => if (!d.isEmpty) && (dictGet d "name").isSome then dictGet d "name" else none

/-- OSM node: `type`, `id`, `lat`, `lon`, `tags`. -/
structure Node where
  type : String
  id : ℤ
  lat : ℚ
  lon : ℚ
  tags : Option (List (String × String))
deriving DecidableEq

/-- OSM way: `type`, `id`, `nodes` (ordered point identifiers), `tags`,
derived `name`, and the `polygon` cache (starts absent). -/
structure Way where
  type : String
  id : ℤ
  nodes : List ℤ
  tags : Option (List (String × String))
  name : Option String
  polygon : Option Polygon
deriving DecidableEq

/-- A relation member descriptor: `member["type"]` and `member["ref"]`. -/
structure Member where
  type : String
  ref : ℤ
deriving DecidableEq

/-- OSM relation: `type`, `id`, `members`, `tags`, derived `name`, and the
`multipolygon` cache (starts absent). -/
structure Relation where
  type : String
  id : ℤ
  members : List Member
  tags : Option (List (String × String))
  name : Option String
  multipolygon : Option MultiPolygon
deriving DecidableEq

/-- A runtime object value, as stored in a lookup mapping. -/
inductive Element where
  | node (n : Node)
  | way (w : Way)
  | rel (r : Relation)
deriving DecidableEq

/-- `Node.__init__`. -/
def Node.init (type : String) (id : ℤ) (lat lon : ℚ)
    (tags : Option (List (String × String))) : Node :=
  { type := type, id := id, lat := lat, lon := lon, tags := tags }

/-- `Way.__init__`: stores the attributes, derives `name` from the tags and
starts with an absent polygon cache. -/
def Way.init (type : String) (id : ℤ) (nodes : List ℤ)
    (tags : Option (List (String × String))) : Way :=
  { type := type, id := id, nodes := nodes, tags := tags,
    name := initName tags, polygon := none }

/-- `Relation.__init__`: stores the attributes, derives `name` from the tags
and starts with an absent multipolygon cache. -/
def Relation.init (type : String) (id : ℤ) (members : List Member)
    (tags : Option (List (String × String))) : Relation :=
  { type := type, id := id, members := members, tags := tags,
    name := initName tags, multipolygon := none }

/-- `Node.__eq__`: `isinstance(other, Node) and self.id == other.id`. -/
def Node.eq (self : Node) (other : Element) : Bool :=
  match other with
  | .node n => self.id == n.id
  | _ => false

/-- `Way.__eq__`: `isinstance(other, Way) and self.id == other.id`. -/
def Way.eq (self : Way) (other : Element) : Bool :=
  match other with
  | .way w => self.id == w.id
  | _ => false

/-- `Relation.__eq__`: `isinstance(other, Relation) and self.id == other.id`. -/
def Relation.eq (self : Relation) (other : Element) : Bool :=
  match other with
  | .rel r => self.id == r.id
  | _ => false

/-- Mapping lookup `m[n]` (first entry with the key, `none` for `KeyError`). -/
def mapGet : List (ℤ × Element) → ℤ → Option Element
  | [], _ => none
  | (k, v) :: rest, n => if n = k then some v else mapGet rest n

/-- In-place mutation of the object stored at key `k`: every entry carrying
key `k` is replaced by the updated object. -/
def mapUpdate : List (ℤ × Element) → ℤ → Element → List (ℤ × Element)
  | [], _, _ => []
  | (k0, v0) :: rest, k, v =>
    (if k0 = k then (k, v) else (k0, v0)) :: mapUpdate rest k v

/-- Attribute read `obj.lat`: only a `Node` has it. -/
def Element.getLat : Element → Except PyErr ℚ
  | .node n => .ok n.lat
  | _ => .error (.attributeError "lat")

/-- Attribute read `obj.lon`: only a `Node` has it. -/
def Element.getLon : Element → Except PyErr ℚ
  | .node n => .ok n.lon
  | _ => .error (.attributeError "lon")

/-- One step of the comprehension in `Way.build_polygon`:
`(nodes[node].lat, nodes[node].lon)` for a single identifier. -/
def resolveCoord (m : List (ℤ × Element)) (n : ℤ) : Except PyErr (ℚ × ℚ) :=
  match mapGet m n with
  | none => .error (.keyError n)
  | some obj =>
    match obj.getLat with
    | .error e => .error e
    | .ok lat =>
      match obj.getLon with
      | .error e => .error e
      | .ok lon => .ok (lat, lon)

/-- The full comprehension `[(nodes[node].lat, nodes[node].lon) for node in
self.nodes]`: resolves the identifiers in order, first error wins. -/
def resolveCoords (m : List (ℤ × Element)) : List ℤ → Except PyErr (List (ℚ × ℚ))
  | [] => .ok []
  | n :: rest =>
    match resolveCoord m n with
    | .error e => .error e
    | .ok c =>
      match resolveCoords m rest with
      | .error e => .error e
      | .ok cs => .ok (c :: cs)

/-- `Way.build_polygon(self, nodes)`: builds `Polygon(coords)` from the
resolved coordinates.  Returns the result together with `self`, which the
method never mutates. -/
def Way.build_polygon (w : Way) (nodes : List (ℤ × Element)) :
    Except PyErr Polygon × Way :=
  match resolveCoords nodes w.nodes with
  | .error e => (.error e, w)
  | .ok coords => (.ok (Polygon.mk coords), w)

/-- The member loop of `Relation.build_multipolygon`: walks the members in
order, accumulating the collected polygons, the evolving ways mapping (cache
writes mutate the shared `Way` objects it holds) and the ghost trace of way
ids for which `build_polygon` was invoked.  An exception aborts the loop,
keeping the mutations performed so far. -/
def buildLoop (ways : List (ℤ × Element)) (polygons : List Polygon)
    (tr : List ℤ) :
    List Member → Except PyErr (List Polygon) × List (ℤ × Element) × List ℤ
  | [] => (.ok polygons, ways, tr)
  | member :: rest =>
    if member.type = "way" then
      match mapGet ways member.ref with
      | none => (.error (.keyError member.ref), ways, tr)
      | some (.node _) => (.error (.attributeError "polygon"), ways, tr)
      | some (.rel _) => (.error (.attributeError "polygon"), ways, tr)
      | some (.way w) =>
        match w.polygon with
        | some p => buildLoop ways (polygons ++ [p]) tr rest
        | none =>
          match (w.build_polygon ways).1 with
          | .error e => (.error e, ways, tr)
          | .ok p =>
            buildLoop (mapUpdate ways member.ref (.way { w with polygon := some p }))
              (polygons ++ [p]) (tr ++ [member.ref]) rest
    else
      buildLoop ways polygons tr rest

/-- `Relation.build_multipolygon(self, ways)`: runs the member loop and wraps
the collected polygons in `MultiPolygon(polygons)`.  Returns the result,
`self` (which the method never mutates), the final ways mapping and the ghost
polygon construction trace. -/
def Relation.build_multipolygon (r : Relation) (ways : List (ℤ × Element)) :
    Except PyErr MultiPolygon × Relation × List (ℤ × Element) × List ℤ :=
  match buildLoop ways [] [] r.members with
  | (.ok ps, ways2, tr) => (.ok (MultiPolygon.mk ps), r, ways2, tr)
  | (.error e, ways2, tr) => (.error e, r, ways2, tr)

/-- Boolean success test on a result. -/
def isOkB {α : Type} : Except PyErr α → Bool
  | .ok _ => true
  | .error _ => false

/-- A points mapping: every stored value is a `Node` object. -/
def isPointsMapB (m : List (ℤ × Element)) : Bool :=
  m.all fun kv => match kv.2 with | .node _ => true | _ => false

/-- The polygon cached for the way stored at key `k`, when that key holds a
way at all. -/
def wayPolyAt (m : List (ℤ × Element)) (k : ℤ) : Option Polygon :=
  match mapGet m k with
  | some (.way w) => w.polygon
  | _ => none

/-- Key `k` resolves to a `Way` whose polygon is obtainable: already cached,
or computable by `build_polygon` over the same mapping. -/
def wayObtainable (m : List (ℤ × Element)) (k : ℤ) : Bool :=
  match mapGet m k with
  | some (.way w) => w.polygon.isSome || isOkB (w.build_polygon m).1
  | _ => false

/-! Mapping lemmas: how lookup interacts with the in-place object update. -/

lemma mapGet_cons (k0 : ℤ) (v0 : Element) (rest : List (ℤ × Element)) (n : ℤ) :
    mapGet ((k0, v0) :: rest) n = if n = k0 then some v0 else mapGet rest n := rfl

lemma mapUpdate_cons (k0 : ℤ) (v0 : Element) (rest : List (ℤ × Element))
    (k : ℤ) (v : Element) :
    mapUpdate ((k0, v0) :: rest) k v =
      (if k0 = k then (k, v) else (k0, v0)) :: mapUpdate rest k v := rfl

lemma mapGet_mapUpdate : ∀ (m : List (ℤ × Element)) (k : ℤ) (v : Element) (n : ℤ),
    mapGet (mapUpdate m k v) n =
      if n = k then (mapGet m n).map (fun _ => v) else mapGet m n := by
  intro m k v n
  induction m with
  | nil => by_cases hn : n = k <;> simp [mapGet, mapUpdate, hn]
  | cons kv rest ih =>
    obtain ⟨k0, v0⟩ := kv
    rw [mapUpdate_cons]
    by_cases h0 : k0 = k
    · subst h0
      rw [if_pos rfl]
      by_cases hn : n = k0
      · subst hn
        simp [mapGet_cons]
      · simp [mapGet_cons, hn, ih]
    · rw [if_neg h0]
      by_cases hn : n = k0
      · have hk : ¬n = k := by rw [hn]; exact h0
        simp [mapGet_cons, hn, hk, h0]
      · simp [mapGet_cons, hn, ih]

lemma mapGet_mapUpdate_absent (m : List (ℤ × Element)) (k : ℤ) (v : Element)
    (n : ℤ) (h : mapGet m n = none) : mapGet (mapUpdate m k v) n = none := by
  rw [mapGet_mapUpdate]
  by_cases hn : n = k
  · subst hn
    rw [if_pos rfl, h]
    rfl
  · rw [if_neg hn]
    exact h

/-! Caching a polygon inside a stored way does not change the outcome of any
coordinate resolution over the mapping: a way object never has `lat`/`lon`,
with or without a cached polygon. -/

lemma resolveCoord_update (m : List (ℤ × Element)) (k : ℤ) (w0 w' : Way)
    (hw : mapGet m k = some (.way w0)) (n : ℤ) :
    resolveCoord (mapUpdate m k (.way w')) n = resolveCoord m n := by
  unfold resolveCoord
  rw [mapGet_mapUpdate]
  by_cases hn : n = k
  · subst hn
    rw [if_pos rfl, hw]
    simp [Element.getLat]
  · rw [if_neg hn]

lemma resolveCoords_update (m : List (ℤ × Element)) (k : ℤ) (w0 w' : Way)
    (hw : mapGet m k = some (.way w0)) :
    ∀ ns, resolveCoords (mapUpdate m k (.way w')) ns = resolveCoords m ns := by
  intro ns
  induction ns with
  | nil => rfl
  | cons n rest ih =>
    simp [resolveCoords, resolveCoord_update m k w0 w' hw n, ih]

lemma build_polygon_update (m : List (ℤ × Element)) (k : ℤ) (w0 w' w : Way)
    (hw : mapGet m k = some (.way w0)) :
    w.build_polygon (mapUpdate m k (.way w')) = w.build_polygon m := by
  unfold Way.build_polygon
  rw [resolveCoords_update m k w0 w' hw]

lemma wayPolyAt_update_other (m : List (ℤ × Element)) (k : ℤ) (v : Element)
    (j : ℤ) (hj : ¬j = k) : wayPolyAt (mapUpdate m k v) j = wayPolyAt m j := by
  unfold wayPolyAt
  rw [mapGet_mapUpdate, if_neg hj]

lemma wayPolyAt_update_self (m : List (ℤ × Element)) (k : ℤ) (w0 w' : Way)
    (hw : mapGet m k = some (.way w0)) :
    wayPolyAt (mapUpdate m k (.way w')) k = w'.polygon := by
  unfold wayPolyAt
  rw [mapGet_mapUpdate, if_pos rfl, hw]
  rfl

/-! Step equations of the member loop. -/

lemma buildLoop_nil (ways : List (ℤ × Element)) (polygons : List Polygon)
    (tr : List ℤ) : buildLoop ways polygons tr [] = (.ok polygons, ways, tr) := rfl

lemma buildLoop_skip (ways : List (ℤ × Element)) (polygons : List Polygon)
    (tr : List ℤ) (member : Member) (rest : List Member)
    (h : ¬member.type = "way") :
    buildLoop ways polygons tr (member :: rest) = buildLoop ways polygons tr rest := by
  simp [buildLoop, h]

lemma buildLoop_missing (ways : List (ℤ × Element)) (polygons : List Polygon)
    (tr : List ℤ) (member : Member) (rest : List Member)
    (h : member.type = "way") (hm : mapGet ways member.ref = none) :
    buildLoop ways polygons tr (member :: rest) =
      (.error (.keyError member.ref), ways, tr) := by
  simp [buildLoop, h, hm]

lemma buildLoop_node_obj (ways : List (ℤ × Element)) (polygons : List Polygon)
    (tr : List ℤ) (member : Member) (rest : List Member) (nd : Node)
    (h : member.type = "way") (hm : mapGet ways member.ref = some (.node nd)) :
    buildLoop ways polygons tr (member :: rest) =
      (.error (.attributeError "polygon"), ways, tr) := by
  simp [buildLoop, h, hm]

lemma buildLoop_rel_obj (ways : List (ℤ × Element)) (polygons : List Polygon)
    (tr : List ℤ) (member : Member) (rest : List Member) (r : Relation)
    (h : member.type = "way") (hm : mapGet ways member.ref = some (.rel r)) :
    buildLoop ways polygons tr (member :: rest) =
      (.error (.attributeError "polygon"), ways, tr) := by
  simp [buildLoop, h, hm]

lemma buildLoop_cached (ways : List (ℤ × Element)) (polygons : List Polygon)
    (tr : List ℤ) (member : Member) (rest : List Member) (w : Way) (p : Polygon)
    (h : member.type = "way") (hm : mapGet ways member.ref = some (.way w))
    (hp : w.polygon = some p) :
    buildLoop ways polygons tr (member :: rest) =
      buildLoop ways (polygons ++ [p]) tr rest := by
  simp [buildLoop, h, hm, hp]

lemma buildLoop_build_err (ways : List (ℤ × Element)) (polygons : List Polygon)
    (tr : List ℤ) (member : Member) (rest : List Member) (w : Way) (e : PyErr)
    (h : member.type = "way") (hm : mapGet ways member.ref = some (.way w))
    (hp : w.polygon = none) (he : (w.build_polygon ways).1 = .error e) :
    buildLoop ways polygons tr (member :: rest) = (.error e, ways, tr) := by
  simp [buildLoop, h, hm, hp, he]

lemma buildLoop_build_ok (ways : List (ℤ × Element)) (polygons : List Polygon)
    (tr : List ℤ) (member : Member) (rest : List Member) (w : Way) (p : Polygon)
    (h : member.type = "way") (hm : mapGet ways member.ref = some (.way w))
    (hp : w.polygon = none) (hb : (w.build_polygon ways).1 = .ok p) :
    buildLoop ways polygons tr (member :: rest) =
      buildLoop (mapUpdate ways member.ref (.way { w with polygon := some p }))
        (polygons ++ [p]) (tr ++ [member.ref]) rest := by
  simp [buildLoop, h, hm, hp, hb]

/-! Elimination helpers. -/

lemma isOkB_elim {α : Type} (e : Except PyErr α) (h : isOkB e = true) :
    ∃ a, e = .ok a := by
  cases e with
  | error e0 => exact Bool.noConfusion h
  | ok a => exact ⟨a, rfl⟩

lemma wayObtainable_elim (m : List (ℤ × Element)) (k : ℤ)
    (h : wayObtainable m k = true) :
    ∃ w : Way, mapGet m k = some (.way w) ∧
      (w.polygon.isSome = true ∨ ∃ p, (w.build_polygon m).1 = .ok p) := by
  unfold wayObtainable at h
  rcases hg : mapGet m k with _ | obj
  · rw [hg] at h
    exact Bool.noConfusion h
  · rw [hg] at h
    cases obj with
    | node nd => exact Bool.noConfusion h
    | rel r0 => exact Bool.noConfusion h
    | way w =>
      refine ⟨w, rfl, ?_⟩
      rcases Bool.or_eq_true_iff.mp h with h1 | h1
      · exact Or.inl h1
      · exact Or.inr (isOkB_elim _ h1)

/-! Once a polygon is cached for a key, the member loop keeps it cached. -/

lemma buildLoop_mono : ∀ (mems : List Member) (ways : List (ℤ × Element))
    (polygons : List Polygon) (tr : List ℤ) (res : Except PyErr (List Polygon))
    (ways2 : List (ℤ × Element)) (tr2 : List ℤ) (k : ℤ) (p : Polygon),
    buildLoop ways polygons tr mems = (res, ways2, tr2) →
    wayPolyAt ways k = some p → wayPolyAt ways2 k = some p := by
  intro mems
  induction mems with
  | nil =>
    intro ways polygons tr res ways2 tr2 k p hrun hk
    rw [buildLoop_nil] at hrun
    cases hrun
    exact hk
  | cons member rest ih =>
    intro ways polygons tr res ways2 tr2 k p hrun hk
    by_cases h : member.type = "way"
    · rcases hm : mapGet ways member.ref with _ | obj
      · rw [buildLoop_missing _ _ _ _ _ h hm] at hrun
        cases hrun
        exact hk
      · cases obj with
        | node nd =>
          rw [buildLoop_node_obj _ _ _ _ _ _ h hm] at hrun
          cases hrun
          exact hk
        | rel r0 =>
          rw [buildLoop_rel_obj _ _ _ _ _ _ h hm] at hrun
          cases hrun
          exact hk
        | way w =>
          rcases hp : w.polygon with _ | p0
          · rcases hb : (w.build_polygon ways).1 with e | p1
            · rw [buildLoop_build_err _ _ _ _ _ _ _ h hm hp hb] at hrun
              cases hrun
              exact hk
            · rw [buildLoop_build_ok _ _ _ _ _ _ _ h hm hp hb] at hrun
              refine ih _ _ _ _ _ _ _ _ hrun ?_
              by_cases hkr : k = member.ref
              · subst hkr
                simp [wayPolyAt, hm, hp] at hk
              · rw [wayPolyAt_update_other _ _ _ _ hkr]
                exact hk
          · rw [buildLoop_cached _ _ _ _ _ _ _ h hm hp] at hrun
            exact ih _ _ _ _ _ _ _ _ hrun hk
    · rw [buildLoop_skip _ _ _ _ _ h] at hrun
      exact ih _ _ _ _ _ _ _ _ hrun hk

/-! Caching a polygon preserves obtainability of every key. -/

lemma wayObtainable_update (ways : List (ℤ × Element)) (ref : ℤ) (w : Way)
    (p : Polygon) (hm : mapGet ways ref = some (.way w)) (j : ℤ)
    (hj : wayObtainable ways j = true) :
    wayObtainable (mapUpdate ways ref (.way { w with polygon := some p })) j
      = true := by
  by_cases hjr : j = ref
  · subst hjr
    simp [wayObtainable, mapGet_mapUpdate, hm]
  · obtain ⟨wj, hgj, _⟩ := wayObtainable_elim ways j hj
    unfold wayObtainable at hj ⊢
    rw [mapGet_mapUpdate, if_neg hjr, hgj]
    rw [hgj] at hj
    replace hj : (wj.polygon.isSome || isOkB (wj.build_polygon ways).1) = true := hj
    show (wj.polygon.isSome ||
      isOkB (wj.build_polygon
        (mapUpdate ways ref (.way { w with polygon := some p }))).1) = true
    rw [build_polygon_update ways ref w { w with polygon := some p } wj hm]
    exact hj

/-! When every way member is obtainable, the loop succeeds and appends exactly
one polygon per way member, in member order; each appended polygon is the one
cached for that member in the final mapping. -/

lemma buildLoop_obtainable_spec : ∀ (mems : List Member)
    (ways : List (ℤ × Element)) (polygons : List Polygon) (tr : List ℤ),
    (∀ m ∈ mems, m.type = "way" → wayObtainable ways m.ref = true) →
    ∃ ps ways2 tr2,
      buildLoop ways polygons tr mems = (.ok (polygons ++ ps), ways2, tr2) ∧
      List.Forall₂
        (fun (m : Member) (p : Polygon) => wayPolyAt ways2 m.ref = some p)
        (mems.filter (fun m => m.type = "way")) ps := by
  intro mems
  induction mems with
  | nil =>
    intro ways polygons tr _
    exact ⟨[], ways, tr, by simp [buildLoop_nil], by simp⟩
  | cons member rest ih =>
    intro ways polygons tr hobt
    by_cases h : member.type = "way"
    · obtain ⟨w, hg, hcase⟩ :=
        wayObtainable_elim ways member.ref (hobt member (by simp) h)
      rcases hp : w.polygon with _ | p0
      · have hbuild : ∃ p, (w.build_polygon ways).1 = .ok p := by
          rcases hcase with h1 | h1
          · rw [hp] at h1
            exact Bool.noConfusion h1
          · exact h1
        obtain ⟨p, hb⟩ := hbuild
        have hrest : ∀ m ∈ rest, m.type = "way" →
            wayObtainable
              (mapUpdate ways member.ref (.way { w with polygon := some p }))
              m.ref = true := by
          intro m hmem hm
          exact wayObtainable_update ways member.ref w p hg m.ref
            (hobt m (by simp [hmem]) hm)
        obtain ⟨ps, ways2, tr2, heq, hfa⟩ :=
          ih (mapUpdate ways member.ref (.way { w with polygon := some p }))
            (polygons ++ [p]) (tr ++ [member.ref]) hrest
        refine ⟨p :: ps, ways2, tr2, ?_, ?_⟩
        · rw [buildLoop_build_ok _ _ _ _ _ _ _ h hg hp hb, heq]
          simp
        · rw [List.filter_cons_of_pos (by simp [h])]
          refine List.Forall₂.cons ?_ hfa
          refine buildLoop_mono rest _ _ _ _ _ _ _ _ heq ?_
          rw [wayPolyAt_update_self ways member.ref w _ hg]
      · obtain ⟨ps, ways2, tr2, heq, hfa⟩ :=
          ih ways (polygons ++ [p0]) tr
            (fun m hmem hm => hobt m (by simp [hmem]) hm)
        refine ⟨p0 :: ps, ways2, tr2, ?_, ?_⟩
        · rw [buildLoop_cached _ _ _ _ _ _ _ h hg hp, heq]
          simp
        · rw [List.filter_cons_of_pos (by simp [h])]
          refine List.Forall₂.cons ?_ hfa
          refine buildLoop_mono rest _ _ _ _ _ _ _ _ heq ?_
          simp [wayPolyAt, hg, hp]
    · obtain ⟨ps, ways2, tr2, heq, hfa⟩ :=
        ih ways polygons tr (fun m hmem hm => hobt m (by simp [hmem]) hm)
      refine ⟨ps, ways2, tr2, ?_, ?_⟩
      · rw [buildLoop_skip _ _ _ _ _ h, heq]
      · rw [List.filter_cons_of_neg (by simp [h])]
        exact hfa

/-! Trace lemmas: every traced key ends up cached, and an already cached key
is never traced again. -/

lemma buildLoop_trace_cached : ∀ (mems : List Member) (ways : List (ℤ × Element))
    (polygons : List Polygon) (tr : List ℤ) (res : Except PyErr (List Polygon))
    (ways2 : List (ℤ × Element)) (tr2 : List ℤ),
    buildLoop ways polygons tr mems = (res, ways2, tr2) →
    (∀ k ∈ tr, (wayPolyAt ways k).isSome = true) →
    ∀ k ∈ tr2, (wayPolyAt ways2 k).isSome = true := by
  intro mems
  induction mems with
  | nil =>
    intro ways polygons tr res ways2 tr2 hrun hinv
    rw [buildLoop_nil] at hrun
    cases hrun
    exact hinv
  | cons member rest ih =>
    intro ways polygons tr res ways2 tr2 hrun hinv
    by_cases h : member.type = "way"
    · rcases hm : mapGet ways member.ref with _ | obj
      · rw [buildLoop_missing _ _ _ _ _ h hm] at hrun
        cases hrun
        exact hinv
      · cases obj with
        | node nd =>
          rw [buildLoop_node_obj _ _ _ _ _ _ h hm] at hrun
          cases hrun
          exact hinv
        | rel r0 =>
          rw [buildLoop_rel_obj _ _ _ _ _ _ h hm] at hrun
          cases hrun
          exact hinv
        | way w =>
          rcases hp : w.polygon with _ | p0
          · rcases hb : (w.build_polygon ways).1 with e | p1
            · rw [buildLoop_build_err _ _ _ _ _ _ _ h hm hp hb] at hrun
              cases hrun
              exact hinv
            · rw [buildLoop_build_ok _ _ _ _ _ _ _ h hm hp hb] at hrun
              refine ih _ _ _ _ _ _ hrun ?_
              intro k hk
              rcases List.mem_append.mp hk with hk' | hk'
              · by_cases hkr : k = member.ref
                · subst hkr
                  rw [wayPolyAt_update_self ways member.ref w _ hm]
                  rfl
                · rw [wayPolyAt_update_other _ _ _ _ hkr]
                  exact hinv k hk'
              · have hkr : k = member.ref := by cases hk' with
                  | head => rfl
                  | tail _ hh => exact absurd hh (List.not_mem_nil k)
                subst hkr
                rw [wayPolyAt_update_self ways member.ref w _ hm]
                rfl
          · rw [buildLoop_cached _ _ _ _ _ _ _ h hm hp] at hrun
            exact ih _ _ _ _ _ _ hrun hinv
    · rw [buildLoop_skip _ _ _ _ _ h] at hrun
      exact ih _ _ _ _ _ _ hrun hinv

lemma buildLoop_cached_not_traced : ∀ (mems : List Member)
    (ways : List (ℤ × Element)) (polygons : List Polygon) (tr : List ℤ)
    (res : Except PyErr (List Polygon)) (ways2 : List (ℤ × Element))
    (tr2 : List ℤ) (k : ℤ),
    buildLoop ways polygons tr mems = (res, ways2, tr2) →
    (wayPolyAt ways k).isSome = true →
    k ∈ tr2 → k ∈ tr := by
  intro mems
  induction mems with
  | nil =>
    intro ways polygons tr res ways2 tr2 k hrun hk hmem
    rw [buildLoop_nil] at hrun
    cases hrun
    exact hmem
  | cons member rest ih =>
    intro ways polygons tr res ways2 tr2 k hrun hk hmem
    by_cases h : member.type = "way"
    · rcases hm : mapGet ways member.ref with _ | obj
      · rw [buildLoop_missing _ _ _ _ _ h hm] at hrun
        cases hrun
        exact hmem
      · cases obj with
        | node nd =>
          rw [buildLoop_node_obj _ _ _ _ _ _ h hm] at hrun
          cases hrun
          exact hmem
        | rel r0 =>
          rw [buildLoop_rel_obj _ _ _ _ _ _ h hm] at hrun
          cases hrun
          exact hmem
        | way w =>
          rcases hp : w.polygon with _ | p0
          · rcases hb : (w.build_polygon ways).1 with e | p1
            · rw [buildLoop_build_err _ _ _ _ _ _ _ h hm hp hb] at hrun
              cases hrun
              exact hmem
            · rw [buildLoop_build_ok _ _ _ _ _ _ _ h hm hp hb] at hrun
              have hkr : ¬k = member.ref := by
                intro hkr
                subst hkr
                simp [wayPolyAt, hm, hp] at hk
              have hk' : (wayPolyAt
                  (mapUpdate ways member.ref
                    (.way { w with polygon := some p1 })) k).isSome = true := by
                rw [wayPolyAt_update_other _ _ _ _ hkr]
                exact hk
              have := ih _ _ _ _ _ _ _ hrun hk' hmem
              rcases List.mem_append.mp this with h' | h'
              · exact h'
              · exfalso
                apply hkr
                cases h' with
                | head => rfl
                | tail _ hh => exact absurd hh (List.not_mem_nil k)
          · rw [buildLoop_cached _ _ _ _ _ _ _ h hm hp] at hrun
            exact ih _ _ _ _ _ _ _ hrun hk hmem
    · rw [buildLoop_skip _ _ _ _ _ h] at hrun
      exact ih _ _ _ _ _ _ _ hrun hk hmem

/-! A member referencing an identity that is absent from the mapping forces
the loop to fail (the mapping never acquires new keys along the way). -/

lemma buildLoop_missing_ref_errors : ∀ (mems : List Member)
    (ways : List (ℤ × Element)) (polygons : List Polygon) (tr : List ℤ),
    (∃ m ∈ mems, m.type = "way" ∧ mapGet ways m.ref = none) →
    ∃ e ways2 tr2, buildLoop ways polygons tr mems = (.error e, ways2, tr2) := by
  intro mems
  induction mems with
  | nil =>
    rintro ways polygons tr ⟨m, hmem, _⟩
    exact absurd hmem (List.not_mem_nil m)
  | cons member rest ih =>
    rintro ways polygons tr ⟨m, hmem, hty, habs⟩
    rcases List.mem_cons.mp hmem with rfl | hmem'
    · exact ⟨.keyError m.ref, ways, tr, buildLoop_missing _ _ _ _ _ hty habs⟩
    · by_cases h : member.type = "way"
      · rcases hm : mapGet ways member.ref with _ | obj
        · exact ⟨.keyError member.ref, ways, tr, buildLoop_missing _ _ _ _ _ h hm⟩
        · cases obj with
          | node nd =>
            exact ⟨.attributeError "polygon", ways, tr,
              buildLoop_node_obj _ _ _ _ _ _ h hm⟩
          | rel r0 =>
            exact ⟨.attributeError "polygon", ways, tr,
              buildLoop_rel_obj _ _ _ _ _ _ h hm⟩
          | way w =>
            rcases hp : w.polygon with _ | p0
            · rcases hb : (w.build_polygon ways).1 with e | p1
              · exact ⟨e, ways, tr, buildLoop_build_err _ _ _ _ _ _ _ h hm hp hb⟩
              · obtain ⟨e, ways2, tr2, heq⟩ :=
                  ih (mapUpdate ways member.ref (.way { w with polygon := some p1 }))
                    (polygons ++ [p1]) (tr ++ [member.ref])
                    ⟨m, hmem', hty, mapGet_mapUpdate_absent _ _ _ _ habs⟩
                exact ⟨e, ways2, tr2,
                  by rw [buildLoop_build_ok _ _ _ _ _ _ _ h hm hp hb]; exact heq⟩
            · obtain ⟨e, ways2, tr2, heq⟩ :=
                ih ways (polygons ++ [p0]) tr ⟨m, hmem', hty, habs⟩
              exact ⟨e, ways2, tr2,
                by rw [buildLoop_cached _ _ _ _ _ _ _ h hm hp]; exact heq⟩
      · obtain ⟨e, ways2, tr2, heq⟩ := ih ways polygons tr ⟨m, hmem', hty, habs⟩
        exact ⟨e, ways2, tr2, by rw [buildLoop_skip _ _ _ _ _ h]; exact heq⟩

/-! Coordinate resolution over a points mapping: the only possible failure is
a missing key, reported as a `KeyError` for that key. -/

lemma mapGet_mem : ∀ (m : List (ℤ × Element)) (n : ℤ) (v : Element),
    mapGet m n = some v → (n, v) ∈ m := by
  intro m
  induction m with
  | nil => intro n v h; cases h
  | cons kv rest ih =>
    obtain ⟨k0, v0⟩ := kv
    intro n v h
    rw [mapGet_cons] at h
    by_cases hn : n = k0
    · rw [if_pos hn] at h
      obtain rfl := hn
      injection h with h'
      obtain rfl := h'
      exact List.mem_cons_self _ _
    · rw [if_neg hn] at h
      exact List.mem_cons_of_mem _ (ih n v h)

lemma pointsMap_lookup (M : List (ℤ × Element)) (hM : isPointsMapB M = true)
    (n : ℤ) (obj : Element) (h : mapGet M n = some obj) :
    ∃ nd : Node, obj = .node nd := by
  have hmem := mapGet_mem M n obj h
  have hobj := List.all_eq_true.mp hM (n, obj) hmem
  cases obj with
  | node nd => exact ⟨nd, rfl⟩
  | way w => exact Bool.noConfusion hobj
  | rel r => exact Bool.noConfusion hobj

lemma resolveCoord_absent (M : List (ℤ × Element)) (n : ℤ)
    (h : mapGet M n = none) : resolveCoord M n = .error (.keyError n) := by
  unfold resolveCoord
  rw [h]

lemma resolveCoord_node (M : List (ℤ × Element)) (n : ℤ) (nd : Node)
    (h : mapGet M n = some (.node nd)) :
    resolveCoord M n = .ok (nd.lat, nd.lon) := by
  unfold resolveCoord
  rw [h]
  rfl

lemma resolveCoord_pointsMap_err (M : List (ℤ × Element))
    (hM : isPointsMapB M = true) (n : ℤ) (e : PyErr)
    (h : resolveCoord M n = .error e) :
    e = .keyError n ∧ mapGet M n = none := by
  rcases hg : mapGet M n with _ | obj
  · rw [resolveCoord_absent M n hg] at h
    injection h with h'
    exact ⟨h'.symm, rfl⟩
  · obtain ⟨nd, rfl⟩ := pointsMap_lookup M hM n obj hg
    rw [resolveCoord_node M n nd hg] at h
    cases h

lemma resolveCoords_ok_all_present : ∀ (ns : List ℤ) (M : List (ℤ × Element))
    (cs : List (ℚ × ℚ)), resolveCoords M ns = .ok cs →
    ∀ n ∈ ns, ∃ obj, mapGet M n = some obj := by
  intro ns
  induction ns with
  | nil => intro M cs _ n hn; exact absurd hn (List.not_mem_nil n)
  | cons n0 rest ih =>
    intro M cs h n hn
    unfold resolveCoords at h
    rcases hc : resolveCoord M n0 with e0 | c
    · rw [hc] at h
      cases h
    · rw [hc] at h
      rcases hr : resolveCoords M rest with e1 | cs0
      · rw [hr] at h
        cases h
      · rcases List.mem_cons.mp hn with rfl | hn'
        · rcases hg : mapGet M n with _ | obj
          · rw [resolveCoord_absent M n hg] at hc
            cases hc
          · exact ⟨obj, rfl⟩
        · exact ih M cs0 hr n hn'

lemma resolveCoords_pointsMap_err : ∀ (ns : List ℤ) (M : List (ℤ × Element)),
    isPointsMapB M = true → ∀ e, resolveCoords M ns = .error e →
    ∃ n ∈ ns, e = .keyError n ∧ mapGet M n = none := by
  intro ns
  induction ns with
  | nil => intro M _ e h; cases h
  | cons n0 rest ih =>
    intro M hM e h
    unfold resolveCoords at h
    rcases hc : resolveCoord M n0 with e0 | c
    · rw [hc] at h
      injection h with h'
      obtain rfl := h'
      obtain ⟨he, hg⟩ := resolveCoord_pointsMap_err M hM n0 e0 hc
      exact ⟨n0, List.mem_cons_self _ _, he, hg⟩
    · rw [hc] at h
      rcases hr : resolveCoords M rest with e1 | cs0
      · rw [hr] at h
        injection h with h'
        obtain rfl := h'
        obtain ⟨n, hn, he, hg⟩ := ih M hM e1 hr
        exact ⟨n, List.mem_cons_of_mem _ hn, he, hg⟩
      · rw [hr] at h
        cases h

lemma resolveCoords_missing_err (ns : List ℤ) (M : List (ℤ × Element))
    (h : ∃ n ∈ ns, mapGet M n = none) :
    ∃ e, resolveCoords M ns = .error e := by
  rcases hr : resolveCoords M ns with e | cs
  · exact ⟨e, rfl⟩
  · obtain ⟨n, hn, habs⟩ := h
    obtain ⟨obj, hobj⟩ := resolveCoords_ok_all_present ns M cs hr n hn
    rw [habs] at hobj
    cases hobj

lemma build_polygon_err_iff (w : Way) (M : List (ℤ × Element)) (e : PyErr) :
    (w.build_polygon M).1 = .error e ↔ resolveCoords M w.nodes = .error e := by
  unfold Way.build_polygon
  rcases h : resolveCoords M w.nodes with e0 | cs <;> simp

/-! Full resolution: when every node ref of the way maps to a `Node`, the
polygon is built from the coordinate pairs `(lat, lon)` in node order. -/

def nodesResolveB (w : Way) (M : List (ℤ × Element)) : Bool :=
  w.nodes.all fun n =>
    match mapGet M n with | some (.node _) => true | _ => false

lemma nodesResolveB_elim (w : Way) (M : List (ℤ × Element))
    (h : nodesResolveB w M = true) :
    ∀ n ∈ w.nodes, ∃ nd : Node, mapGet M n = some (.node nd) := by
  intro n hn
  have hb := List.all_eq_true.mp h n hn
  rcases hg : mapGet M n with _ | obj
  · rw [hg] at hb
    exact Bool.noConfusion hb
  · rw [hg] at hb
    cases obj with
    | node nd => exact ⟨nd, rfl⟩
    | way w0 => exact Bool.noConfusion hb
    | rel r0 => exact Bool.noConfusion hb

lemma resolveCoords_all_nodes : ∀ (ns : List ℤ) (M : List (ℤ × Element)),
    (∀ n ∈ ns, ∃ nd : Node, mapGet M n = some (.node nd)) →
    ∃ cs, resolveCoords M ns = .ok cs ∧
      List.Forall₂ (fun (n : ℤ) (c : ℚ × ℚ) => ∃ nd : Node,
        mapGet M n = some (.node nd) ∧ c = (nd.lat, nd.lon)) ns cs := by
  intro ns
  induction ns with
  | nil => intro M _; exact ⟨[], rfl, List.Forall₂.nil⟩
  | cons n0 rest ih =>
    intro M hres
    obtain ⟨nd, hg⟩ := hres n0 (List.mem_cons_self _ _)
    obtain ⟨cs, hcs, hfa⟩ := ih M (fun n hn => hres n (List.mem_cons_of_mem _ hn))
    refine ⟨(nd.lat, nd.lon) :: cs, ?_, ?_⟩
    · unfold resolveCoords
      rw [resolveCoord_node M n0 nd hg, hcs]
    · exact List.Forall₂.cons ⟨nd, hg, rfl⟩ hfa

/-! The wrapper equation relating `build_multipolygon` to its member loop. -/

lemma build_multipolygon_loop (r : Relation) (W : List (ℤ × Element)) :
    r.build_multipolygon W =
      ((buildLoop W [] [] r.members).1.map MultiPolygon.mk, r,
        (buildLoop W [] [] r.members).2.1, (buildLoop W [] [] r.members).2.2) := by
  unfold Relation.build_multipolygon
  rcases buildLoop W [] [] r.members with ⟨res, ways2, tr⟩
  cases res <;> rfl

lemma wayPolyAt_isSome_elim (m : List (ℤ × Element)) (k : ℤ)
    (h : (wayPolyAt m k).isSome = true) :
    ∃ w : Way, mapGet m k = some (.way w) ∧ w.polygon.isSome = true := by
  unfold wayPolyAt at h
  rcases hg : mapGet m k with _ | obj
  · rw [hg] at h
    exact Bool.noConfusion h
  · rw [hg] at h
    cases obj with
    | node nd => exact Bool.noConfusion h
    | rel r0 => exact Bool.noConfusion h
    | way w => exact ⟨w, rfl, h⟩

lemma build_multipolygon_err (r : Relation) (W : List (ℤ × Element)) (e : PyErr)
    (W2 : List (ℤ × Element)) (tr : List ℤ)
    (h : buildLoop W [] [] r.members = (.error e, W2, tr)) :
    r.build_multipolygon W = (.error e, r, W2, tr) := by
  unfold Relation.build_multipolygon
  rw [h]

lemma build_multipolygon_ok (r : Relation) (W : List (ℤ × Element))
    (ps : List Polygon) (W2 : List (ℤ × Element)) (tr : List ℤ)
    (h : buildLoop W [] [] r.members = (.ok ps, W2, tr)) :
    r.build_multipolygon W = (.ok (MultiPolygon.mk ps), r, W2, tr) := by
  unfold Relation.build_multipolygon
  rw [h]

lemma build_multipolygon_components (r : Relation) (W : List (ℤ × Element)) :
    (r.build_multipolygon W).2.1 = r ∧
    (r.build_multipolygon W).2.2.1 = (buildLoop W [] [] r.members).2.1 ∧
    (r.build_multipolygon W).2.2.2 = (buildLoop W [] [] r.members).2.2 := by
  unfold Relation.build_multipolygon
  rcases buildLoop W [] [] r.members with ⟨res, W2, tr⟩
  cases res <;> exact ⟨rfl, rfl, rfl⟩

/-! Concrete sample entities, used by the closed instances below. -/

def nodeA : Node := Node.init "node" 1 0 0 none

def nodeB : Node := Node.init "node" 2 0 1 none

def nodeC : Node := Node.init "node" 3 1 1 none

def pointsMapSample : List (ℤ × Element) :=
  [(1, .node nodeA), (2, .node nodeB), (3, .node nodeC)]

def triWay : Way := Way.init "way" 10 [1, 2, 3, 1] none

def polyU : Polygon := Polygon.mk [(0, 0), (0, 1), (1, 1)]

def polyV : Polygon := Polygon.mk [(2, 2), (2, 3), (3, 3)]

def wayU : Way := { Way.init "way" 10 [] none with polygon := some polyU }

def wayV : Way := { Way.init "way" 11 [] none with polygon := some polyV }

def waysMapSample : List (ℤ × Element) := [(10, .way wayU), (11, .way wayV)]

def relSample : Relation :=
  Relation.init "relation" 100 [⟨"way", 10⟩, ⟨"node", 5⟩, ⟨"way", 11⟩] none

def wayEmpty : Way := Way.init "way" 20 [] none

def waysMapEmptyWay : List (ℤ × Element) := [(20, .way wayEmpty)]

def relFailing : Relation :=
  Relation.init "relation" 101 [⟨"way", 20⟩, ⟨"way", 99⟩] none

def wayMissing : Way := Way.init "way" 30 [1, 2] none

def oneNodeMap : List (ℤ × Element) := [(1, .node nodeA)]

def relMissing : Relation := Relation.init "relation" 102 [⟨"way", 99⟩] none

/-! Basic facts about the constructors and the pure methods. -/

lemma initName_of_none : initName none = none := rfl

lemma initName_of_lookup_none (d : List (String × String))
    (h : dictGet d "name" = none) : initName (some d) = none := by
  simp [initName, h]

lemma initName_of_lookup_some (d : List (String × String)) (v : String)
    (h : dictGet d "name" = some v) : initName (some d) = some v := by
  have hd : d.isEmpty = false := by
    cases d with
    | nil => simp [dictGet] at h
    | cons a rest => rfl
  simp [initName, h, hd]

lemma build_polygon_self (w : Way) (M : List (ℤ × Element)) :
    (w.build_polygon M).2 = w := by
  unfold Way.build_polygon
  cases resolveCoords M w.nodes <;> rfl

/-- C5: equality of nodes, ways and relations is identity based — `p == q`
holds exactly when the two ids coincide, whatever the other attributes
(coordinates, node refs, members, tags, derived name, cache state) are. -/
theorem equality_iff_same_identity :
    (∀ a b : Node, a.eq (.node b) = true ↔ a.id = b.id) ∧
    (∀ a b : Way, a.eq (.way b) = true ↔ a.id = b.id) ∧
    (∀ a b : Relation, a.eq (.rel b) = true ↔ a.id = b.id) := by
  refine ⟨?_, ?_, ?_⟩ <;> intro a b <;>
    simp [Node.eq, Way.eq, Relation.eq]

/-- C7: `Way.build_polygon` leaves the way entirely unchanged; in particular
it does not populate the polygon cache of the way it was called on. -/
theorem build_polygon_leaves_way_unchanged :
    ∀ (w : Way) (M : List (ℤ × Element)),
      (w.build_polygon M).2 = w ∧ (w.build_polygon M).2.polygon = w.polygon := by
  intro w M
  have h := build_polygon_self w M
  exact ⟨h, by rw [h]⟩

/-- C6 (counterexample): a successful `build_multipolygon` call does not
populate the multipolygon cache — here the call on an empty relation succeeds
with an empty multipolygon, yet the relation after the call still has an
absent `multipolygon`. -/
theorem multipolygon_cache_unpopulated_after_success :
    ((Relation.init "relation" 1 [] none).build_multipolygon []).1 =
      .ok (MultiPolygon.mk []) ∧
    ((Relation.init "relation" 1 [] none).build_multipolygon []).2.1.multipolygon
      = none := by
  constructor <;> rfl

/-- C6 (amended): the multipolygon cache starts absent at construction, and
`build_multipolygon` never mutates the relation — it neither populates nor
consults `multipolygon`, so the cache stays exactly as it was. -/
theorem multipolygon_cache_never_written :
    (∀ (t : String) (i : ℤ) (ms : List Member)
        (tg : Option (List (String × String))),
      (Relation.init t i ms tg).multipolygon = none) ∧
    (∀ (r : Relation) (W : List (ℤ × Element)),
      (r.build_multipolygon W).2.1 = r) := by
  constructor
  · intro t i ms tg; rfl
  · intro r W
    unfold Relation.build_multipolygon
    rcases buildLoop W [] [] r.members with ⟨res, ways2, tr⟩
    cases res <;> rfl

/-- C8: for ways and relations, the derived name is the value of the "name"
tag when tags are present and contain that key, and is absent when tags are
absent or lack a "name" entry; it is a field computed at construction. -/
theorem derived_name_from_tags :
    (∀ (t : String) (i : ℤ) (ns : List ℤ)
        (tags : Option (List (String × String))),
      (tags = none → (Way.init t i ns tags).name = none) ∧
      (∀ d, tags = some d → dictGet d "name" = none →
        (Way.init t i ns tags).name = none) ∧
      (∀ d v, tags = some d → dictGet d "name" = some v →
        (Way.init t i ns tags).name = some v)) ∧
    (∀ (t : String) (i : ℤ) (ms : List Member)
        (tags : Option (List (String × String))),
      (tags = none → (Relation.init t i ms tags).name = none) ∧
      (∀ d, tags = some d → dictGet d "name" = none →
        (Relation.init t i ms tags).name = none) ∧
      (∀ d v, tags = some d → dictGet d "name" = some v →
        (Relation.init t i ms tags).name = some v)) := by
  constructor
  · intro t i ns tags
    refine ⟨?_, ?_, ?_⟩
    · rintro rfl; rfl
    · rintro d rfl h
      show initName (some d) = none
      exact initName_of_lookup_none d h
    · rintro d v rfl h
      show initName (some d) = some v
      exact initName_of_lookup_some d v h
  · intro t i ms tags
    refine ⟨?_, ?_, ?_⟩
    · rintro rfl; rfl
    · rintro d rfl h
      show initName (some d) = none
      exact initName_of_lookup_none d h
    · rintro d v rfl h
      show initName (some d) = some v
      exact initName_of_lookup_some d v h

/-- C8 witness: concrete instances of the three name derivation cases. -/
theorem derived_name_from_tags_witness :
    (Way.init "way" 1 [] (some [("name", "park")])).name = some "park" ∧
    (Relation.init "relation" 2 [] none).name = none ∧
    (Way.init "way" 3 [] (some [("leisure", "park")])).name = none :=
  ⟨(derived_name_from_tags.1 "way" 1 [] (some [("name", "park")])).2.2
      [("name", "park")] "park" rfl rfl,
   (derived_name_from_tags.2 "relation" 2 [] none).1 rfl,
   (derived_name_from_tags.1 "way" 3 [] (some [("leisure", "park")])).2.1
      [("leisure", "park")] rfl rfl⟩

/-- C1: when every way member of a relation resolves to a way whose polygon
is obtainable, `build_multipolygon` succeeds with exactly one polygon per
way-typed member, in stored member order (each being the polygon cached for
that member ref in the final mapping); members of other types contribute
nothing, duplicate refs contribute duplicate polygons, and zero qualifying
members give an empty multipolygon, not an error. -/
theorem build_multipolygon_one_polygon_per_way_member :
    ∀ (r : Relation) (W : List (ℤ × Element)),
    (∀ m ∈ r.members, m.type = "way" → wayObtainable W m.ref = true) →
    ∃ (mp : MultiPolygon) (W2 : List (ℤ × Element)) (tr : List ℤ),
      r.build_multipolygon W = (.ok mp, r, W2, tr) ∧
      List.Forall₂
        (fun (m : Member) (p : Polygon) => wayPolyAt W2 m.ref = some p)
        (r.members.filter (fun m => m.type = "way")) mp.polygons ∧
      mp.polygons.length = (r.members.filter (fun m => m.type = "way")).length ∧
      (r.members.filter (fun m => m.type = "way") = [] →
        mp = MultiPolygon.mk []) := by
  intro r W hobt
  obtain ⟨ps, W2, tr, heq, hfa⟩ := buildLoop_obtainable_spec r.members W [] [] hobt
  rw [List.nil_append] at heq
  refine ⟨MultiPolygon.mk ps, W2, tr, build_multipolygon_ok r W ps W2 tr heq,
    hfa, ?_, ?_⟩
  · exact (List.Forall₂.length_eq hfa).symm
  · intro hnil
    rw [hnil] at hfa
    cases hfa
    rfl

/-- C1 witness: members way 10, node 5, way 11 over a mapping with two cached
ways produce a two-polygon multipolygon; the node member is skipped. -/
theorem build_multipolygon_one_polygon_per_way_member_witness :
    (∀ m ∈ relSample.members, m.type = "way" →
        wayObtainable waysMapSample m.ref = true) ∧
    (∃ (mp : MultiPolygon) (W2 : List (ℤ × Element)) (tr : List ℤ),
      relSample.build_multipolygon waysMapSample = (.ok mp, relSample, W2, tr) ∧
      List.Forall₂
        (fun (m : Member) (p : Polygon) => wayPolyAt W2 m.ref = some p)
        (relSample.members.filter (fun m => m.type = "way")) mp.polygons ∧
      mp.polygons.length =
        (relSample.members.filter (fun m => m.type = "way")).length ∧
      (relSample.members.filter (fun m => m.type = "way") = [] →
        mp = MultiPolygon.mk [])) :=
  ⟨by decide,
   build_multipolygon_one_polygon_per_way_member relSample waysMapSample (by decide)⟩

/-- C2: a way member with an absent polygon cache has its polygon computed by
`build_polygon` over the same mapping and stored into the cache of the shared
way; a member with a populated cache is used without recomputation; and a
second `build_multipolygon` call, starting from the mapping state a first
call produced, never invokes `build_polygon` for a way the first call
cached (its ref never reenters the construction trace). -/
theorem build_multipolygon_polygon_caching :
    (∀ (ways : List (ℤ × Element)) (polygons : List Polygon) (tr : List ℤ)
        (member : Member) (rest : List Member) (w : Way) (p : Polygon),
      member.type = "way" → mapGet ways member.ref = some (.way w) →
      w.polygon = none → (w.build_polygon ways).1 = .ok p →
      buildLoop ways polygons tr (member :: rest) =
        buildLoop (mapUpdate ways member.ref (.way { w with polygon := some p }))
          (polygons ++ [p]) (tr ++ [member.ref]) rest) ∧
    (∀ (ways : List (ℤ × Element)) (polygons : List Polygon) (tr : List ℤ)
        (member : Member) (rest : List Member) (w : Way) (p : Polygon),
      member.type = "way" → mapGet ways member.ref = some (.way w) →
      w.polygon = some p →
      buildLoop ways polygons tr (member :: rest) =
        buildLoop ways (polygons ++ [p]) tr rest) ∧
    (∀ (r : Relation) (W : List (ℤ × Element)) (res : Except PyErr MultiPolygon)
        (r2 : Relation) (W2 : List (ℤ × Element)) (tr : List ℤ),
      r.build_multipolygon W = (res, r2, W2, tr) →
      ∀ k ∈ tr, k ∉ (r.build_multipolygon W2).2.2.2) := by
  refine ⟨buildLoop_build_ok, buildLoop_cached, ?_⟩
  intro r W res r2 W2 tr hrun k hk
  have hW2 : (buildLoop W [] [] r.members).2.1 = W2 := by
    rw [← (build_multipolygon_components r W).2.1, hrun]
  have htr : (buildLoop W [] [] r.members).2.2 = tr := by
    rw [← (build_multipolygon_components r W).2.2, hrun]
  rw [← htr] at hk
  have hcached := buildLoop_trace_cached r.members W [] [] _ _ _ rfl
    (fun k0 hk0 => absurd hk0 (List.not_mem_nil k0)) k hk
  rw [hW2] at hcached
  rw [(build_multipolygon_components r W2).2.2]
  intro hmem
  have hin := buildLoop_cached_not_traced r.members W2 [] [] _ _ _ k rfl hcached hmem
  exact absurd hin (List.not_mem_nil k)

/-- C2 witness: an uncached way (empty node list) is built and cached; a
cached way is reused without touching the state; and a way cached by a first
(failing) call is not rebuilt by a second call on the resulting mapping. -/
theorem build_multipolygon_polygon_caching_witness :
    (wayEmpty.polygon = none ∧
      buildLoop waysMapEmptyWay [] [] [⟨"way", 20⟩] =
        buildLoop
          (mapUpdate waysMapEmptyWay 20
            (.way { wayEmpty with polygon := some (Polygon.mk []) }))
          [Polygon.mk []] [20] []) ∧
    (wayU.polygon = some polyU ∧
      buildLoop waysMapSample [] [] [⟨"way", 10⟩] =
        buildLoop waysMapSample [polyU] [] []) ∧
    (20 : ℤ) ∉ (relFailing.build_multipolygon
        [(20, Element.way { wayEmpty with polygon := some (Polygon.mk []) })]).2.2.2 :=
  ⟨⟨rfl,
    build_multipolygon_polygon_caching.1 waysMapEmptyWay [] [] ⟨"way", 20⟩ []
      wayEmpty (Polygon.mk []) rfl rfl rfl rfl⟩,
   ⟨rfl,
    build_multipolygon_polygon_caching.2.1 waysMapSample [] [] ⟨"way", 10⟩ []
      wayU polyU rfl rfl rfl⟩,
   build_multipolygon_polygon_caching.2.2 relFailing waysMapEmptyWay
     (.error (.keyError 99)) relFailing
     [(20, Element.way { wayEmpty with polygon := some (Polygon.mk []) })] [20]
     rfl 20 (by decide)⟩

/-- C3: over a points mapping, `build_polygon` fails exactly when some node
ref is absent from the mapping, and every failure is the `KeyError` naming a
missing ref; a way member whose ref is absent forces `build_multipolygon` to
fail, the loop raising the `KeyError` of the ref when it reaches the member;
and a failure of the nested `build_polygon` is propagated unchanged. -/
theorem missing_reference_failure :
    (∀ (w : Way) (M : List (ℤ × Element)), isPointsMapB M = true →
      (((∃ e, (w.build_polygon M).1 = .error e) ↔
          ∃ n ∈ w.nodes, mapGet M n = none) ∧
        ∀ e, (w.build_polygon M).1 = .error e →
          ∃ n ∈ w.nodes, e = .keyError n ∧ mapGet M n = none)) ∧
    (∀ (r : Relation) (W : List (ℤ × Element)),
      (∃ m ∈ r.members, m.type = "way" ∧ mapGet W m.ref = none) →
      ∃ e W2 tr, r.build_multipolygon W = (.error e, r, W2, tr)) ∧
    (∀ (ways : List (ℤ × Element)) (polygons : List Polygon) (tr : List ℤ)
        (member : Member) (rest : List Member),
      member.type = "way" → mapGet ways member.ref = none →
      buildLoop ways polygons tr (member :: rest) =
        (.error (.keyError member.ref), ways, tr)) ∧
    (∀ (ways : List (ℤ × Element)) (polygons : List Polygon) (tr : List ℤ)
        (member : Member) (rest : List Member) (w : Way) (e : PyErr),
      member.type = "way" → mapGet ways member.ref = some (.way w) →
      w.polygon = none → (w.build_polygon ways).1 = .error e →
      buildLoop ways polygons tr (member :: rest) = (.error e, ways, tr)) := by
  refine ⟨?_, ?_, buildLoop_missing, buildLoop_build_err⟩
  · intro w M hM
    constructor
    · constructor
      · rintro ⟨e, he⟩
        obtain ⟨n, hn, _, hg⟩ := resolveCoords_pointsMap_err w.nodes M hM e
          ((build_polygon_err_iff w M e).mp he)
        exact ⟨n, hn, hg⟩
      · intro hmiss
        obtain ⟨e, he⟩ := resolveCoords_missing_err w.nodes M hmiss
        exact ⟨e, (build_polygon_err_iff w M e).mpr he⟩
    · intro e he
      obtain ⟨n, hn, hke, hg⟩ := resolveCoords_pointsMap_err w.nodes M hM e
        ((build_polygon_err_iff w M e).mp he)
      exact ⟨n, hn, hke, hg⟩
  · intro r W hmiss
    obtain ⟨e, W2, tr, heq⟩ :=
      buildLoop_missing_ref_errors r.members W [] [] hmiss
    exact ⟨e, W2, tr, build_multipolygon_err r W e W2 tr heq⟩

/-- C3 witness: a way with refs `[1, 2]` over a points mapping holding only
ref 1 fails with the `KeyError` for ref 2; a relation with a way member whose
ref is absent from an empty mapping fails. -/
theorem missing_reference_failure_witness :
    isPointsMapB oneNodeMap = true ∧
    (((∃ e, (wayMissing.build_polygon oneNodeMap).1 = .error e) ↔
        ∃ n ∈ wayMissing.nodes, mapGet oneNodeMap n = none) ∧
      ∀ e, (wayMissing.build_polygon oneNodeMap).1 = .error e →
        ∃ n ∈ wayMissing.nodes, e = .keyError n ∧ mapGet oneNodeMap n = none) ∧
    (∃ m ∈ relMissing.members, m.type = "way" ∧
      mapGet ([] : List (ℤ × Element)) m.ref = none) ∧
    (∃ e W2 tr,
      relMissing.build_multipolygon [] = (.error e, relMissing, W2, tr)) :=
  ⟨by decide,
   missing_reference_failure.1 wayMissing oneNodeMap (by decide),
   by decide,
   missing_reference_failure.2.1 relMissing [] (by decide)⟩

/-- C4: when every node ref of a way resolves to a node, `build_polygon`
succeeds and the polygon boundary visits, in node ref order, the coordinate
pair of each resolved point assembled as `(lat, lon)` in that literal axis
order, with no validity check applied to the result. -/
theorem build_polygon_coords_in_order :
    ∀ (w : Way) (M : List (ℤ × Element)), nodesResolveB w M = true →
    ∃ coords, w.build_polygon M = (.ok (Polygon.mk coords), w) ∧
      List.Forall₂ (fun (n : ℤ) (c : ℚ × ℚ) => ∃ nd : Node,
        mapGet M n = some (.node nd) ∧ c = (nd.lat, nd.lon)) w.nodes coords := by
  intro w M h
  obtain ⟨cs, hcs, hfa⟩ :=
    resolveCoords_all_nodes w.nodes M (nodesResolveB_elim w M h)
  refine ⟨cs, ?_, hfa⟩
  unfold Way.build_polygon
  rw [hcs]

/-- C4 witness: the way `[1, 2, 3, 1]` over the three-point mapping builds
the closed boundary `(0,0), (0,1), (1,1), (0,0)` in that order. -/
theorem build_polygon_coords_in_order_witness :
    nodesResolveB triWay pointsMapSample = true ∧
    (∃ coords,
      triWay.build_polygon pointsMapSample = (.ok (Polygon.mk coords), triWay) ∧
      List.Forall₂ (fun (n : ℤ) (c : ℚ × ℚ) => ∃ nd : Node,
        mapGet pointsMapSample n = some (.node nd) ∧ c = (nd.lat, nd.lon))
        triWay.nodes coords) :=
  ⟨by decide, build_polygon_coords_in_order triWay pointsMapSample (by decide)⟩

/-- C9: two consecutive `build_polygon` calls on a way, with the mapping
unchanged in between (the second call running on the way returned by the
first), both succeed and return equal polygons. -/
theorem build_polygon_idempotent :
    ∀ (w : Way) (M : List (ℤ × Element)), nodesResolveB w M = true →
    ∃ p, (w.build_polygon M).1 = .ok p ∧
      ((w.build_polygon M).2.build_polygon M).1 = .ok p := by
  intro w M h
  obtain ⟨cs, hcs, -⟩ :=
    resolveCoords_all_nodes w.nodes M (nodesResolveB_elim w M h)
  refine ⟨Polygon.mk cs, ?_, ?_⟩
  · show (Way.build_polygon w M).1 = .ok (Polygon.mk cs)
    unfold Way.build_polygon
    rw [hcs]
  · rw [build_polygon_self w M]
    show (Way.build_polygon w M).1 = .ok (Polygon.mk cs)
    unfold Way.build_polygon
    rw [hcs]

/-- C9 witness: consecutive builds of the sample way agree. -/
theorem build_polygon_idempotent_witness :
    nodesResolveB triWay pointsMapSample = true ∧
    (∃ p, (triWay.build_polygon pointsMapSample).1 = .ok p ∧
      ((triWay.build_polygon pointsMapSample).2.build_polygon
        pointsMapSample).1 = .ok p) :=
  ⟨by decide, build_polygon_idempotent triWay pointsMapSample (by decide)⟩

/-- C10: `build_multipolygon` is not atomic on failure — when the call fails,
every way whose polygon it built and cached before the failing member (every
ref in the construction trace) still holds its cached polygon in the mapping
state returned with the error; nothing is rolled back. -/
theorem build_multipolygon_failure_keeps_cached_polygons :
    ∀ (r : Relation) (W : List (ℤ × Element)) (e : PyErr) (r2 : Relation)
      (W2 : List (ℤ × Element)) (tr : List ℤ),
    r.build_multipolygon W = (.error e, r2, W2, tr) →
    ∀ k ∈ tr, ∃ w : Way,
      mapGet W2 k = some (.way w) ∧ w.polygon.isSome = true := by
  intro r W e r2 W2 tr hrun k hk
  have hW2 : (buildLoop W [] [] r.members).2.1 = W2 := by
    rw [← (build_multipolygon_components r W).2.1, hrun]
  have htr : (buildLoop W [] [] r.members).2.2 = tr := by
    rw [← (build_multipolygon_components r W).2.2, hrun]
  rw [← htr] at hk
  have hcached := buildLoop_trace_cached r.members W [] [] _ _ _ rfl
    (fun k0 hk0 => absurd hk0 (List.not_mem_nil k0)) k hk
  rw [hW2] at hcached
  exact wayPolyAt_isSome_elim W2 k hcached

/-- C10 witness: the first member (way 20, empty node list) is built and
cached, the second member (way 99) is absent, so the call fails with its
`KeyError`; way 20 keeps its cached polygon in the returned state. -/
theorem build_multipolygon_failure_keeps_cached_polygons_witness :
    relFailing.build_multipolygon waysMapEmptyWay =
      (.error (.keyError 99), relFailing,
        [(20, Element.way { wayEmpty with polygon := some (Polygon.mk []) })],
        [20]) ∧
    (∀ k ∈ [(20 : ℤ)], ∃ w : Way,
      mapGet [(20, Element.way { wayEmpty with polygon := some (Polygon.mk []) })]
        k = some (.way w) ∧ w.polygon.isSome = true) :=
  ⟨rfl,
   build_multipolygon_failure_keeps_cached_polygons relFailing waysMapEmptyWay
     (.keyError 99) relFailing
     [(20, Element.way { wayEmpty with polygon := some (Polygon.mk []) })] [20]
     rfl⟩

end OSM
